import Mathlib

/-!
Verification development for the gbridge-bridge MQTT relay.

We give a shallow embedding of the programs data model and operations:
`SwitchConfig`, the switch table built by `prepare_switch_configs`,
the pure transformer `zap_tristate`, the per-message handling step of
the event loop in `run`, and the argument dispatch of `main`.
The Rust `HashMap<String, SwitchConfig>` is modelled as an association
list with unique keys: `insertEntry` overwrites an existing binding in
place and otherwise appends, matching the observable behaviour of
`HashMap::insert` as used by `HashMap::from_iter`.
-/

set_option autoImplicit false

namespace GBridge

/-- One controllable switch from the configuration file: a name and the
encoded command strings for switching it on and off. Mirrors the Rust
struct `SwitchConfig { name, on, off }`. -/
structure SwitchConfig where
  name : String
  «on» : String
  «off» : String
deriving DecidableEq, Repr

/-- Lookup in the switch table, modelling `HashMap::get`. -/
def getEntry (m : List (String × SwitchConfig)) (k : String) : Option SwitchConfig :=
  match m with
  | [] => none
  | p :: rest => if p.1 = k then some p.2 else getEntry rest k

/-- Insertion into the switch table, modelling `HashMap::insert`: an
existing binding for the key is overwritten in place, otherwise the new
binding is appended. -/
def insertEntry (m : List (String × SwitchConfig)) (k : String) (v : SwitchConfig) :
    List (String × SwitchConfig) :=
  match m with
  | [] => [(k, v)]
  | p :: rest => if p.1 = k then (k, v) :: rest else p :: insertEntry rest k v

/-- Model of `prepare_switch_configs`: builds the switch table by
inserting each config under its `name`, in input order, exactly as
`HashMap::from_iter(configs.into_iter().map(|c| (c.name.to_string(), c)))`
inserts the pairs one by one. -/
def prepare_switch_configs (configs : List SwitchConfig) : List (String × SwitchConfig) :=
  configs.foldl (fun m c => insertEntry m c.name c) []

/-- Model of Rust `str::split(sep)` on a character list: splits at every
occurrence of `sep`, keeping empty segments, and yields one (empty)
segment for the empty input. -/
def splitChar (sep : Char) : List Char → List (List Char)
  | [] => [[]]
  | c :: rest =>
    if c = sep then [] :: splitChar sep rest
    else
      match splitChar sep rest with
      | [] => [[c]]
      | g :: gs => (c :: g) :: gs

/-- The `/`-delimited segments of a topic, as strings: model of
`topic.split('/').collect::<Vec<_>>()`. -/
def split_topic (topic : String) : List String :=
  (splitChar '/' topic.data).map (fun cs => String.mk cs)

/-- Model of `zap_tristate`: split the topic on `/`, take the segment at
index 2, look it up in the table, then compare the payload against the
literals "0" and "1". -/
def zap_tristate (topic : String) (payload : String)
    (switch_configs : List (String × SwitchConfig)) : Option String :=
  (((split_topic topic)[2]?).bind (fun switch => getEntry switch_configs switch)).bind
    (fun c =>
      if payload = "0" then some c.«off»
      else if payload = "1" then some c.«on»
      else none)

/-- Result of handling one inbound publish packet in the event loop of
`run`: how many times the publish counter was incremented, the command
string handed to the target publish call if any, and whether an error
was propagated out of the loop by the `?` operator. -/
structure HandleResult where
  incr : Nat
  publishAttempt : Option String
  halt : Bool
deriving DecidableEq, Repr

/-- Model of the publish branch of the event loop in `run`: `decoded` is
the result of `std::str::from_utf8(&p.payload)` (`none` when the payload
is not valid UTF-8, in which case the `?` operator propagates the
error), and `publishOk` tells whether the target publish call succeeds.
On a transform match the counter is incremented by `metrics.incr`
before `client.publish(..)?` is called, and a failing publish then
propagates its error with `?`. -/
def handle_packet (topic : String) (decoded : Option String)
    (table : List (String × SwitchConfig)) (publishOk : Bool) : HandleResult :=
  match decoded with
  | none => { incr := 0, publishAttempt := none, halt := true }
  | some payload =>
    match zap_tristate topic payload table with
    | none => { incr := 0, publishAttempt := none, halt := false }
    | some t => { incr := 1, publishAttempt := some t, halt := !publishOk }

/-- One notification from the source session, as matched by the event
loop in `run`: a connection error (logged, loop continues), an incoming
publish packet carrying the topic, the UTF-8 decode result of its
payload and the outcome of the subsequent target publish call, another
incoming packet, or an outgoing event (both only logged). -/
inductive Event where
  | connErr
  | publishPacket (topic : String) (decoded : Option String) (publishOk : Bool)
  | otherIncoming
  | outgoing
deriving DecidableEq, Repr

/-- Observable state of the event loop: the value of the publish counter
and the commands successfully published to the target topic, in order. -/
structure RunState where
  publish_count : Nat
  published : List String
deriving DecidableEq, Repr

/-- Model of the event loop of `run`: notifications are processed in
order; connection errors, non-publish packets and outgoing events are
only logged; a publish packet is handled by `handle_packet`; when
handling propagates an error (decode failure or failed publish) the
loop stops and `run` returns the error. A counter increment that
preceded a failed publish has already been sent to the metrics sink,
so it is kept in the state. -/
def runLoop (table : List (String × SwitchConfig)) :
    List Event → RunState → RunState × Except Unit Unit
  | [], st => (st, Except.ok ())
  | e :: rest, st =>
    match e with
    | Event.connErr => runLoop table rest st
    | Event.otherIncoming => runLoop table rest st
    | Event.outgoing => runLoop table rest st
    | Event.publishPacket topic decoded publishOk =>
      let r := handle_packet topic decoded table publishOk
      let st2 : RunState :=
        { publish_count := st.publish_count + r.incr,
          published := st.published ++ (if publishOk then r.publishAttempt.toList else []) }
      if r.halt then (st2, Except.error ()) else runLoop table rest st2

/-- The action taken by `main` on the program arguments: with a path
argument present it proceeds to load the configuration file and run;
without one it prints "ERR: Missing configuration argument." to stderr
and returns `Ok(())`, that is a success exit status. -/
inductive MainAction where
  | proceed (configPath : String)
  | reportMissing (stderrLine : String) (result : Except Unit Unit)
deriving Repr

/-- Model of the argument dispatch of `main`: `args` is the full argv
including the program name at index 0, as returned by `env::args()`, and
the configuration path is looked up at index 1. -/
def main_dispatch (args : List String) : MainAction :=
  match args[1]? with
  | some path => MainAction.proceed path
  | none => MainAction.reportMissing "ERR: Missing configuration argument." (Except.ok ())

/- Sanity checks on the examples from the configuration sample. -/

/-- The two switches of the sample configuration file. -/
def sampleSwitches : List SwitchConfig :=
  [{ name := "d2777", «on» := "FFFFFFFF0001", «off» := "FFFFFFFF0010" },
   { name := "d2778", «on» := "FFFFFF0F0001", «off» := "FFFFF0FF0010" }]

/-- The sample switch table. -/
def sampleTable : List (String × SwitchConfig) :=
  prepare_switch_configs sampleSwitches

example : split_topic "home/living/d2777/set" = ["home", "living", "d2777", "set"] := by
  decide

example : split_topic "" = [""] := by decide

example : split_topic "a//b" = ["a", "", "b"] := by decide

example : zap_tristate "home/living/d2777/set" "1" sampleTable = some "FFFFFFFF0001" := by
  decide

example : zap_tristate "home/living/d2777/set" "0" sampleTable = some "FFFFFFFF0010" := by
  decide

example : zap_tristate "home/living/unknown/set" "1" sampleTable = none := by
  decide

example : zap_tristate "a/b" "1" sampleTable = none := by
  decide

/-- C1: for every table and every topic whose segment at index 2 of the
`/`-split is a name bound in the table, `zap_tristate` returns the bound
switch off string on payload "0", its on string on payload "1", and
`none` on every other payload (exact string comparison). -/
theorem zap_tristate_known_switch (topic : String) (table : List (String × SwitchConfig))
    (seg : String) (c : SwitchConfig)
    (hseg : (split_topic topic)[2]? = some seg)
    (hget : getEntry table seg = some c) :
    zap_tristate topic "0" table = some c.«off» ∧
    zap_tristate topic "1" table = some c.«on» ∧
    ∀ payload : String, payload ≠ "0" → payload ≠ "1" →
      zap_tristate topic payload table = none := by
  refine ⟨?_, ?_, ?_⟩
  · simp [zap_tristate, hseg, Option.bind, hget]
  · simp [zap_tristate, hseg, Option.bind, hget]
  · intro payload h0 h1
    simp [zap_tristate, hseg, Option.bind, hget, h0, h1]

/-- Witness for C1 at the sample switch d2777 on topic
"home/living/d2777/set" with payloads "0", "1" and "2". -/
theorem zap_tristate_known_switch_witness :
    zap_tristate "home/living/d2777/set" "0" sampleTable = some "FFFFFFFF0010" ∧
    zap_tristate "home/living/d2777/set" "1" sampleTable = some "FFFFFFFF0001" ∧
    zap_tristate "home/living/d2777/set" "2" sampleTable = none := by
  have h := zap_tristate_known_switch "home/living/d2777/set" sampleTable "d2777"
    { name := "d2777", «on» := "FFFFFFFF0001", «off» := "FFFFFFFF0010" }
    (by decide) (by decide)
  exact ⟨h.1, h.2.1, h.2.2 "2" (by decide) (by decide)⟩

/-- C2: a topic whose `/`-split has fewer than 3 segments never matches,
for every payload and every table. -/
theorem zap_tristate_short_topic (topic payload : String)
    (table : List (String × SwitchConfig))
    (h : (split_topic topic).length < 3) :
    zap_tristate topic payload table = none := by
  have h2 : (split_topic topic)[2]? = none := by
    rw [List.getElem?_eq_none]
    omega
  simp [zap_tristate, h2, Option.bind]

/-- Witness for C2 at topic "a/b" (two segments) against the non-empty
sample table. -/
theorem zap_tristate_short_topic_witness :
    zap_tristate "a/b" "7" sampleTable = none :=
  zap_tristate_short_topic "a/b" "7" sampleTable (by decide)

/-- C3: a topic with at least 3 segments whose segment at index 2 is not
a key of the table never matches, for every payload. -/
theorem zap_tristate_unknown_switch (topic payload : String)
    (table : List (String × SwitchConfig)) (seg : String)
    (hseg : (split_topic topic)[2]? = some seg)
    (hget : getEntry table seg = none) :
    zap_tristate topic payload table = none := by
  simp [zap_tristate, hseg, Option.bind, hget]

/-- Witness for C3 at topic "home/living/unknown/set" with payload "1"
against the sample table, which has no switch named "unknown". -/
theorem zap_tristate_unknown_switch_witness :
    zap_tristate "home/living/unknown/set" "1" sampleTable = none :=
  zap_tristate_unknown_switch "home/living/unknown/set" "1" sampleTable "unknown"
    (by decide) (by decide)

/- Helper lemmas about the switch table. -/

/-- Lookup after insertion: the inserted key maps to the new value and
every other key is unchanged. -/
theorem getEntry_insertEntry (m : List (String × SwitchConfig)) (k k' : String)
    (v : SwitchConfig) :
    getEntry (insertEntry m k v) k' = if k' = k then some v else getEntry m k' := by
  induction m with
  | nil =>
    simp only [insertEntry, getEntry]
    rcases eq_or_ne k' k with h | h
    · subst h; simp
    · simp [h, Ne.symm h]
  | cons p m ih =>
    simp only [insertEntry]
    rcases eq_or_ne p.1 k with hp | hp
    · rw [if_pos hp]
      rcases eq_or_ne k' k with h | h
      · subst h; simp [getEntry, hp]
      · simp [getEntry, h, Ne.symm h, hp]
    · rw [if_neg hp]
      simp only [getEntry, ih]
      rcases eq_or_ne p.1 k' with hpk | hpk
      · have hk : k' ≠ k := fun hh => hp (hpk.trans hh)
        simp [hpk, hk]
      · simp [hpk]

/-- Lookup in the table built by folding insertions: the last config in
the input with the wanted name wins, and the accumulator is consulted
only when no config has that name. -/
theorem getEntry_foldl (configs : List SwitchConfig) (m : List (String × SwitchConfig))
    (k : String) :
    getEntry (configs.foldl (fun m c => insertEntry m c.name c) m) k =
      (configs.reverse.find? (fun c => c.name == k)).or (getEntry m k) := by
  induction configs generalizing m with
  | nil => simp
  | cons c cs ih =>
    rw [List.foldl_cons, ih, List.reverse_cons, List.find?_append, Option.or_assoc]
    have h1 : ([c].find? (fun c => c.name == k)).or (getEntry m k) =
        getEntry (insertEntry m c.name c) k := by
      rw [getEntry_insertEntry]
      rcases eq_or_ne c.name k with h | h
      · simp [List.find?, h]
      · have hb : (c.name == k) = false := by simp [h]
        simp [List.find?, hb, Ne.symm h]
    rw [h1]

/-- C10: `zap_tristate` depends on the topic only through the segment at
index 2 of its `/`-split: two topics that both have fewer than 3
segments, or that agree on the segment at index 2, give the same result
for the same payload and table. -/
theorem zap_tristate_noninterference (t1 t2 payload : String)
    (table : List (String × SwitchConfig))
    (h : ((split_topic t1).length < 3 ∧ (split_topic t2).length < 3) ∨
      ∃ s, (split_topic t1)[2]? = some s ∧ (split_topic t2)[2]? = some s) :
    zap_tristate t1 payload table = zap_tristate t2 payload table := by
  have hkey : (split_topic t1)[2]? = (split_topic t2)[2]? := by
    rcases h with ⟨h1, h2⟩ | ⟨s, h1, h2⟩
    · rw [List.getElem?_eq_none (by omega), List.getElem?_eq_none (by omega)]
    · rw [h1, h2]
  unfold zap_tristate
  rw [hkey]

/-- Witness for C10 at the topics "a/b/d2777/c" and "q/r/d2777", which
agree on segment 2 and differ everywhere else. -/
theorem zap_tristate_noninterference_witness :
    zap_tristate "a/b/d2777/c" "1" sampleTable = zap_tristate "q/r/d2777" "1" sampleTable :=
  zap_tristate_noninterference "a/b/d2777/c" "q/r/d2777" "1" sampleTable
    (Or.inr ⟨"d2777", by decide, by decide⟩)

/-- C4: when two configs share a name and the second of them is the last
config with that name in the input, lookup of that name in the table
built by `prepare_switch_configs` returns the second config: last write
wins. -/
theorem prepare_switch_configs_last_wins
    (pre mid post : List SwitchConfig) (c1 c2 : SwitchConfig)
    (_hname : c1.name = c2.name)
    (hpost : ∀ c ∈ post, c.name ≠ c2.name) :
    getEntry (prepare_switch_configs (pre ++ c1 :: (mid ++ c2 :: post))) c2.name = some c2 := by
  unfold prepare_switch_configs
  rw [getEntry_foldl]
  have hpost2 : post.reverse.find? (fun c => c.name == c2.name) = none := by
    rw [List.find?_eq_none]
    intro x hx
    simpa using hpost x (List.mem_reverse.mp hx)
  simp [List.reverse_append, List.find?_append, hpost2, List.find?]

/-- Witness for C4: two configs named "d2777" with different commands;
the later one is retrieved. -/
theorem prepare_switch_configs_last_wins_witness :
    getEntry (prepare_switch_configs
      [⟨"d2777", "A1", "B1"⟩, ⟨"d2777", "A2", "B2"⟩]) "d2777" =
      some ⟨"d2777", "A2", "B2"⟩ := by
  have h := prepare_switch_configs_last_wins [] [] []
    ⟨"d2777", "A1", "B1"⟩ ⟨"d2777", "A2", "B2"⟩ rfl (by simp)
  simpa using h

/-- Inserting a key that is not yet bound grows the table by one. -/
theorem length_insertEntry_fresh (m : List (String × SwitchConfig)) (k : String)
    (v : SwitchConfig) (h : getEntry m k = none) :
    (insertEntry m k v).length = m.length + 1 := by
  induction m with
  | nil => simp [insertEntry]
  | cons p m ih =>
    simp only [getEntry] at h
    rcases eq_or_ne p.1 k with hp | hp
    · rw [if_pos hp] at h
      cases h
    · rw [if_neg hp] at h
      simp [insertEntry, hp, ih h]

/-- Folding insertions of configs with pairwise distinct names, all of
them unbound in the accumulator, grows the table by the number of
configs. -/
theorem foldl_length (configs : List SwitchConfig) (m : List (String × SwitchConfig))
    (hdist : configs.Pairwise (fun a b => a.name ≠ b.name))
    (hfresh : ∀ c ∈ configs, getEntry m c.name = none) :
    (configs.foldl (fun m c => insertEntry m c.name c) m).length =
      m.length + configs.length := by
  induction configs generalizing m with
  | nil => simp
  | cons c cs ih =>
    rw [List.foldl_cons]
    have hd := List.pairwise_cons.mp hdist
    have hfresh2 : ∀ x ∈ cs, getEntry (insertEntry m c.name c) x.name = none := by
      intro x hx
      rw [getEntry_insertEntry, if_neg (fun hh => hd.1 x hx hh.symm)]
      exact hfresh x (List.mem_cons_of_mem _ hx)
    rw [ih (insertEntry m c.name c) hd.2 hfresh2,
      length_insertEntry_fresh m c.name c (hfresh c (List.mem_cons_self _ _))]
    simp only [List.length_cons]
    omega

/-- Among configs with pairwise distinct names, the reversed list finds
a member config exactly at itself. -/
theorem find?_reverse_of_mem (configs : List SwitchConfig) (c : SwitchConfig)
    (hmem : c ∈ configs)
    (hdist : configs.Pairwise (fun a b => a.name ≠ b.name)) :
    configs.reverse.find? (fun x => x.name == c.name) = some c := by
  induction configs with
  | nil => cases hmem
  | cons a cs ih =>
    have hd := List.pairwise_cons.mp hdist
    rw [List.reverse_cons, List.find?_append]
    rcases List.mem_cons.mp hmem with rfl | h
    · have hnone : cs.reverse.find? (fun x => x.name == c.name) = none := by
        rw [List.find?_eq_none]
        intro x hx
        simpa using fun hh => hd.1 x (List.mem_reverse.mp hx) hh.symm
      rw [hnone]
      simp [List.find?]
    · rw [ih h hd.2]
      rfl

/-- C5: for configs with pairwise distinct names the table has exactly
one entry per config, and each config is retrieved by its own name. -/
theorem prepare_switch_configs_roundtrip (configs : List SwitchConfig)
    (hdist : configs.Pairwise (fun a b => a.name ≠ b.name)) :
    (prepare_switch_configs configs).length = configs.length ∧
    ∀ c ∈ configs, getEntry (prepare_switch_configs configs) c.name = some c := by
  constructor
  · have h := foldl_length configs [] hdist (fun c _ => rfl)
    simpa [prepare_switch_configs] using h
  · intro c hc
    unfold prepare_switch_configs
    rw [getEntry_foldl, find?_reverse_of_mem configs c hc hdist]
    rfl

/-- Witness for C5 on the two-switch sample configuration. -/
theorem prepare_switch_configs_roundtrip_witness :
    (prepare_switch_configs sampleSwitches).length = 2 ∧
    getEntry (prepare_switch_configs sampleSwitches) "d2778" =
      some ⟨"d2778", "FFFFFF0F0001", "FFFFF0FF0010"⟩ := by
  have h := prepare_switch_configs_roundtrip sampleSwitches
    (by simp [sampleSwitches, List.pairwise_cons])
  exact ⟨h.1, h.2 ⟨"d2778", "FFFFFF0F0001", "FFFFF0FF0010"⟩ (by decide)⟩

/-- Inserting a config under its own name preserves the key-equals-name
invariant. -/
theorem insertEntry_key_eq_name (m : List (String × SwitchConfig)) (v : SwitchConfig)
    (hm : ∀ p ∈ m, p.1 = p.2.name) :
    ∀ p ∈ insertEntry m v.name v, p.1 = p.2.name := by
  induction m with
  | nil =>
    intro p hp
    simp only [insertEntry, List.mem_singleton] at hp
    subst hp
    rfl
  | cons q m ih =>
    intro p hp
    simp only [insertEntry] at hp
    rcases eq_or_ne q.1 v.name with hq | hq
    · rw [if_pos hq] at hp
      rcases List.mem_cons.mp hp with rfl | h
      · rfl
      · exact hm p (List.mem_cons_of_mem _ h)
    · rw [if_neg hq] at hp
      rcases List.mem_cons.mp hp with rfl | h
      · exact hm p (List.mem_cons_self _ _)
      · exact ih (fun r hr => hm r (List.mem_cons_of_mem _ hr)) p h

/-- C6: every entry of the table built by `prepare_switch_configs` has
its key equal to the `name` field of its value; the table is pure data
and is never modified after construction. -/
theorem prepare_switch_configs_key_eq_name (configs : List SwitchConfig) :
    ∀ p ∈ prepare_switch_configs configs, p.1 = p.2.name := by
  suffices h : ∀ m : List (String × SwitchConfig), (∀ p ∈ m, p.1 = p.2.name) →
      ∀ p ∈ configs.foldl (fun m c => insertEntry m c.name c) m, p.1 = p.2.name by
    exact h [] (fun p hp => by cases hp)
  induction configs with
  | nil => intro m hm; simpa using hm
  | cons c cs ih =>
    intro m hm
    rw [List.foldl_cons]
    exact ih (insertEntry m c.name c) (insertEntry_key_eq_name m c hm)

/-- Witness for C6 at the sample table entry for "d2777". -/
theorem prepare_switch_configs_key_eq_name_witness :
    ("d2777", (⟨"d2777", "FFFFFFFF0001", "FFFFFFFF0010"⟩ : SwitchConfig)).1 =
      ("d2777", (⟨"d2777", "FFFFFFFF0001", "FFFFFFFF0010"⟩ : SwitchConfig)).2.name :=
  prepare_switch_configs_key_eq_name sampleSwitches
    ("d2777", ⟨"d2777", "FFFFFFFF0001", "FFFFFFFF0010"⟩) (by decide)

/-- C7 fails on the code: on topic "home/living/d2777/set" with payload
"1" the transform matches, the target publish fails, and the counter is
nevertheless incremented, because `metrics.incr("publish")` runs before
`client.publish(..)?`. -/
theorem handle_packet_incr_despite_failed_publish :
    zap_tristate "home/living/d2777/set" "1" sampleTable = some "FFFFFFFF0001" ∧
    (handle_packet "home/living/d2777/set" (some "1") sampleTable false).incr = 1 ∧
    (handle_packet "home/living/d2777/set" (some "1") sampleTable false).halt = true :=
  ⟨by decide, by decide, by decide⟩

/-- C7 amended: the counter is incremented exactly when the payload
decodes and the transform matches, before the publish attempt and
regardless of whether the publish succeeds; it is not incremented on a
decode failure or when the transform yields no match. -/
theorem handle_packet_incr (topic : String) (decoded : Option String)
    (table : List (String × SwitchConfig)) (publishOk : Bool) :
    (handle_packet topic decoded table publishOk).incr =
      match decoded with
      | none => 0
      | some payload => if (zap_tristate topic payload table).isSome then 1 else 0 := by
  cases decoded with
  | none => rfl
  | some payload =>
    simp only [handle_packet]
    cases h : zap_tristate topic payload table <;> simp [h]

/-- C8: with no configuration argument, `main` prints the error line to
stderr and makes no connection attempt, but returns `Ok(())`, so the
process exits with status 0, a success indication. -/
theorem main_missing_arg_reports_ok :
    main_dispatch ["gbridge-bridge"] =
      MainAction.reportMissing "ERR: Missing configuration argument." (Except.ok ()) :=
  rfl

/-- C9: a publish packet whose payload fails UTF-8 decoding halts the
whole run: the events after the offending packet never influence the
outcome, and the loop result is the propagated error. -/
theorem runLoop_decode_error_halts (table : List (String × SwitchConfig))
    (pre post : List Event) (topic : String) (publishOk : Bool) (st : RunState) :
    runLoop table (pre ++ Event.publishPacket topic none publishOk :: post) st =
      runLoop table (pre ++ [Event.publishPacket topic none publishOk]) st ∧
    (runLoop table (pre ++ [Event.publishPacket topic none publishOk]) st).2 =
      Except.error () := by
  induction pre generalizing st with
  | nil =>
    constructor
    · simp [runLoop, handle_packet]
    · simp [runLoop, handle_packet]
  | cons e pre ih =>
    cases e with
    | connErr => simpa only [List.cons_append, runLoop] using ih st
    | otherIncoming => simpa only [List.cons_append, runLoop] using ih st
    | outgoing => simpa only [List.cons_append, runLoop] using ih st
    | publishPacket t d pOk =>
      simp only [List.cons_append, runLoop]
      by_cases hh : (handle_packet t d table pOk).halt
      · simp [hh]
      · simp only [hh, if_false, Bool.false_eq_true, if_neg]
        exact ih _

end GBridge
